import Mathlib

/-!
Verification of the tiptap extension layer (code input/paste rules and the
task-item node view) against its natural-language specification.

The task-item node view, its checkbox click handler, and its input-rule regex
are embedded directly from `src/packages/extension-list/src/task-item/task-item.ts`
(the file contains an original and a patched version of the extension; both are
modelled where a claim refers to both).

The code-mark pattern matcher (`inputRegex` / `pasteRegex` of
`@tiptap/extension-code`) and the input/paste rule engine of `@tiptap/core` are
not part of the provided sources — only their unit tests are
(`src/unnamed/part_000`, `src/unnamed/part_001`,
`src/packages/extension-code/__tests__/code.spec.ts`).  Those parts are
modelled from the specification (§4.2 boundary policies, §8 scenarios), with
the in-repository tests fixing the observable behaviour.
-/

namespace Tiptap

/-- The backtick delimiter character of the code pattern. -/
def tick : Char := Char.ofNat 96

abbrev Chars := List Char

/-- Modelled from the spec: the `inputRegex` of `@tiptap/extension-code` is not
under `src/` (only its unit tests in `src/unnamed/part_001` are).  Per §4.2 the
matcher is anchored at the end of the subject string; a lone delimiter or an
empty delimiter pair never matches; the character immediately preceding the
first delimiter and immediately following the last delimiter must not be
delimiter characters; the interior contains no delimiter.  The subject matches
exactly when it decomposes as `pre ++ tick ++ inner ++ tick` with `pre` and
`inner` free of delimiter characters and `inner` nonempty; the result carries
the text before the opening delimiter and the inner capture. -/
def codeInputMatch (s : Chars) : Option (Chars × Chars) :=
  let pre := s.takeWhile (fun c => c ≠ tick)
  let rest := s.dropWhile (fun c => c ≠ tick)
  match rest with
  | [] => none
  | _ :: rest2 =>
    let inner := rest2.takeWhile (fun c => c ≠ tick)
    let rest3 := rest2.dropWhile (fun c => c ≠ tick)
    match inner, rest3 with
    | [], _ => none
    | _ :: _, [_] => some (pre, inner)
    | _, _ => none

/-- A fragment of rendered paragraph content: plain text or an inline code
span. -/
inductive Seg where
  | plain : Chars → Seg
  | code : Chars → Seg
deriving DecidableEq

/-- The text carried by a segment. -/
def Seg.text : Seg → Chars
  | .plain s => s
  | .code s => s

/-- Whether a segment is an inline code span. -/
def Seg.isCode : Seg → Bool
  | .code _ => true
  | .plain _ => false

/-- Replace the text of a segment, keeping its kind. -/
def Seg.withText : Seg → Chars → Seg
  | .plain _, t => .plain t
  | .code _, t => .code t

/-- The flattened plain-text content of a document fragment (the lookback
buffer of §4.1: the concatenated text of every node before the cursor). -/
def docText (d : List Seg) : Chars := d.foldr (fun s acc => s.text ++ acc) []

/-- Whether a document fragment contains any inline code span. -/
def hasCodeSeg (d : List Seg) : Bool := d.any Seg.isCode

/-- Append one typed character as plain text at the end of the fragment. -/
def appendPlainChar : List Seg → Char → List Seg
  | [], c => [.plain [c]]
  | [.plain s], c => [.plain (s ++ [c])]
  | s :: rest, c => s :: appendPlainChar rest c

/-- Keep the first `n` characters of the fragment, preserving segment
structure (the unmatched text before the rule's matched range). -/
def truncSegs : List Seg → Nat → List Seg
  | _, 0 => []
  | [], _ => []
  | s :: rest, n =>
    if s.text.length ≤ n then s :: truncSegs rest (n - s.text.length)
    else [s.withText (s.text.take n)]

/-- Modelled from the spec: the input-rule engine of `@tiptap/core` is not
under `src/`.  Per §4.2 and the test-helper documentation in
`src/unnamed/part_000`, on each typed character the subject string is the text
before the cursor plus the newly typed character; if the end-anchored matcher
accepts, the matched range is replaced by an inline code span wrapping the
inner capture with both delimiters discarded, otherwise the character lands as
plain text. -/
def applyInputChar (d : List Seg) (c : Char) : List Seg :=
  match codeInputMatch (docText d ++ [c]) with
  | none => appendPlainChar d c
  | some (pre, inner) => truncSegs d pre.length ++ [Seg.code inner]

/-- Modelled from the spec: typing a string character by character with the
input rule evaluated on every keystroke. -/
def typeEach (s : String) : List Seg := s.toList.foldl applyInputChar []

/-- Modelled from the spec: typing a string with the input rule evaluated on
the final keystroke only — exactly the `typeText` harness of
`src/unnamed/part_000`, which inserts the prefix directly and fires
`handleTextInput` with the last character (the engine itself only ever
evaluates the single typed character against the text already before the
cursor). -/
def typeFinal (s : String) : List Seg :=
  match s.toList.reverse with
  | [] => []
  | c :: restRev =>
    applyInputChar (if restRev = [] then [] else [Seg.plain restRev.reverse]) c

/-- Whitespace, as the `\s` class of the pattern language (ASCII fragment). -/
def isWS (c : Char) : Bool := c.isWhitespace

/-- Whether a position whose preceding character is `prev?` may open a paste
match: start of the subject or after whitespace. -/
def pasteBoundaryOk : Option Char → Bool
  | none => true
  | some p => isWS p

/-- Modelled from the spec: the `pasteRegex` of `@tiptap/extension-code` and
the paste-rule engine of `@tiptap/core` are not under `src/` (only their unit
tests are).  Per §4.2 the subject is scanned globally left to right with
multiple non-overlapping matches; a match is a nonempty delimiter-free inner
text between two delimiters, opened at the subject start or after whitespace
and closed at the subject end or before whitespace (the tests in
`src/unnamed/part_001` and `src/unnamed/part_000` fix these boundaries,
including the rejection of `(tick)co(tick)de(tick)`); matched ranges become
code spans with the delimiters discarded, everything else stays plain.  The
fuel argument only bounds the recursion and is initialised above the subject
length. -/
def pasteAux : Nat → Option Char → Chars → List Seg
  | 0, _, _ => []
  | _ + 1, _, [] => []
  | fuel + 1, prev?, c :: rest =>
    if c = tick ∧ pasteBoundaryOk prev? = true then
      let inner := rest.takeWhile (fun x => x ≠ tick)
      let rest2 := rest.dropWhile (fun x => x ≠ tick)
      match inner, rest2 with
      | _ :: _, _ :: rest3 =>
        match rest3 with
        | [] => [Seg.code inner]
        | d :: _ =>
          if isWS d then Seg.code inner :: pasteAux fuel (some tick) rest3
          else Seg.plain [c] :: pasteAux fuel (some c) rest
      | _, _ => Seg.plain [c] :: pasteAux fuel (some c) rest
    else Seg.plain [c] :: pasteAux fuel (some c) rest

/-- Merge adjacent plain segments. -/
def normSegs : List Seg → List Seg
  | [] => []
  | s :: rest =>
    match s, normSegs rest with
    | Seg.plain a, Seg.plain b :: tail => Seg.plain (a ++ b) :: tail
    | s', tail => s' :: tail

/-- Result of pasting a string in one operation: the pasted content after the
global paste-rule pass. -/
def pasteSegs (s : String) : List Seg :=
  normSegs (pasteAux (s.length + 1) none s.toList)

/-- The inner captures of the global scan, in subject order — the captures of
`matchAll` over the subject. -/
def pasteCaptures (s : String) : List Chars :=
  (pasteSegs s).filterMap fun sg =>
    match sg with
    | .code i => some i
    | .plain _ => none

/-- C2: for the single-delimiter code pattern, a lone delimiter, an empty
delimiter pair, and doubled delimiters adjacent to the match boundary never
produce a code span: the end-anchored matcher rejects each of the five
subjects, the global paste scan finds no match in them, pasting them yields
only plain text, and typing them (with the rule evaluated on the final
keystroke, as the engine evaluates exactly the typed character against the
text before the cursor) leaves the text literal. -/
theorem code_boundary_negatives :
    codeInputMatch "`".toList = none ∧
    codeInputMatch "``".toList = none ∧
    codeInputMatch "``code``".toList = none ∧
    codeInputMatch "``code`".toList = none ∧
    codeInputMatch "`code``".toList = none ∧
    pasteCaptures "`" = [] ∧
    pasteCaptures "``" = [] ∧
    pasteCaptures "``code``" = [] ∧
    pasteCaptures "``code`" = [] ∧
    pasteCaptures "`code``" = [] ∧
    hasCodeSeg (pasteSegs "`") = false ∧
    hasCodeSeg (pasteSegs "``") = false ∧
    hasCodeSeg (pasteSegs "``code``") = false ∧
    hasCodeSeg (pasteSegs "``code`") = false ∧
    hasCodeSeg (pasteSegs "`code``") = false ∧
    hasCodeSeg (typeFinal "`") = false ∧
    hasCodeSeg (typeFinal "``") = false ∧
    hasCodeSeg (typeFinal "``code``") = false ∧
    hasCodeSeg (typeFinal "``code`") = false ∧
    hasCodeSeg (typeFinal "`code``") = false := by
  decide

/-- C3: typing the six characters of a delimited word into an empty paragraph,
character by character, fires the rule only on the final delimiter and yields
exactly one inline code span wrapping the word with both delimiters discarded;
a preceding plain text, space, or punctuation character is left unchanged
outside the span. -/
theorem code_inputRule_positive :
    typeEach "`code`" = [Seg.code "code".toList] ∧
    typeFinal "`code`" = [Seg.code "code".toList] ∧
    typeEach "text `code`" = [Seg.plain "text ".toList, Seg.code "code".toList] ∧
    typeEach "!`code`" = [Seg.plain "!".toList, Seg.code "code".toList] ∧
    typeEach "a`code`" = [Seg.plain "a".toList, Seg.code "code".toList] := by
  decide

/-- C4: in paste-rule mode the pattern is scanned globally left to right with
multiple non-overlapping matches: over the subject with two delimited snippets
the scan returns exactly two matches with inner captures in order, and the
pasted content is two independent code spans with the literal text between
them preserved unchanged. -/
theorem code_pasteRule_multiple :
    pasteCaptures "`one` and `two`" = ["one".toList, "two".toList] ∧
    pasteSegs "`one` and `two`" =
      [Seg.code "one".toList, Seg.plain " and ".toList, Seg.code "two".toList] := by
  decide

/-- C5: a match whose interior content contains the delimiter character is
rejected at the pattern level — the end-anchored matcher and the global paste
scan both reject the subject, and pasting it yields no code span — but typing
it character by character is not correctly rejected: the rule already fires on
the second delimiter, leaving a code span in the document (the acknowledged
current behaviour kept by the skipped tests). -/
theorem code_interior_delimiter :
    codeInputMatch "`co`de`".toList = none ∧
    pasteCaptures "`co`de`" = [] ∧
    hasCodeSeg (pasteSegs "`co`de`") = false ∧
    typeEach "`co`de`" = [Seg.code "co".toList, Seg.plain "de`".toList] ∧
    hasCodeSeg (typeEach "`co`de`") = true := by
  decide

/-! ## Task-item node view and checkbox click handling

Embedded from `src/packages/extension-list/src/task-item/task-item.ts`.
A DOM element's attribute set is modelled as a function from attribute names
to optional string values (`setAttribute` / `removeAttribute` / `dataset`
writes, with JavaScript's stringification of booleans made explicit). -/

abbrev AttrFun := String → Option String

/-- `element.setAttribute key value`. -/
def setA (m : AttrFun) (k v : String) : AttrFun :=
  fun k' => if k' = k then some v else m k'

/-- `element.removeAttribute key`. -/
def removeA (m : AttrFun) (k : String) : AttrFun :=
  fun k' => if k' = k then none else m k'

/-- The caller-supplied static `HTMLAttributes` option bag
(`this.options.HTMLAttributes`); `staticLookup` is the JavaScript
`key in staticAttrs` test together with the `staticAttrs[key]` read. -/
abbrev StaticAttrs := List (String × String)

/-- Lookup in the static option bag. -/
def staticLookup (sa : StaticAttrs) (k : String) : Option String := sa.lookup k

/-- The slice of a ProseMirror node the node view reads: its type name, its
boolean `checked` attribute, and its text content. -/
structure VNode where
  typeName : String
  checked : Bool
  textContent : String

/-- JavaScript stringification of a boolean (`dataset` assignment and
`toString()`). -/
def bts (b : Bool) : String := if b then "true" else "false"

/-- The fallback accessibility label built in `updateA11Y`. -/
def defaultCheckboxLabel (n : VNode) : String :=
  "Task item checkbox for " ++
    (if n.textContent = "" then "empty task item" else n.textContent)

/-- The `updateA11Y` label: the `a11y.checkboxLabel` callback when supplied and
truthy (the empty string is falsy in JavaScript and falls through), otherwise
the default label. -/
def a11yLabel (cb : Option (VNode → Bool → String)) (n : VNode)
    (checkedState : Bool) : String :=
  match cb with
  | none => defaultCheckboxLabel n
  | some f =>
    let s := f n checkedState
    if s = "" then defaultCheckboxLabel n else s

/-- The mutable state of the patched node view: the `li` element's attributes
(`dataset.checked` is the `data-checked` attribute), the checkbox span's
attributes, the checkbox's `ariaLabel`, and the tracked
`prevRenderedAttributeKeys`. -/
structure TaskItemViewState where
  listItemAttrs : AttrFun
  checkboxAttrs : AttrFun
  ariaLabel : String
  prevRenderedAttributeKeys : List String

/-- The freshly computed rendered attribute set
(`getRenderedAttributes(updatedNode, extensionAttributes)`, an external
collaborator): keys paired with values, `none` standing for a
null-or-undefined value. -/
abbrev RenderedAttrs := List (String × Option String)

/-- Shared branch of the update diff: if the key exists in the static options,
restore it to the static value, otherwise remove the attribute from the view. -/
def resetOrRemove (sa : StaticAttrs) (m : AttrFun) (k : String) : AttrFun :=
  match staticLookup sa k with
  | some v => setA m k v
  | none => removeA m k

/-- First diff pass of the patched `update`: every previously rendered key
that is no longer present is reset to its static default or removed. -/
def removedPass (sa : StaticAttrs) (newKeys : List String)
    (prevKeys : List String) (m : AttrFun) : AttrFun :=
  prevKeys.foldl
    (fun acc key => if key ∈ newKeys then acc else resetOrRemove sa acc key) m

/-- Second diff pass of the patched `update`: every newly rendered entry is
set, a null-or-undefined value falling back to the static default or removal. -/
def changedPass (sa : StaticAttrs) (newAttrs : RenderedAttrs)
    (m : AttrFun) : AttrFun :=
  newAttrs.foldl
    (fun acc kv =>
      match kv.2 with
      | none => resetOrRemove sa acc kv.1
      | some v => setA acc kv.1 v) m

/-- The patched node view's `update` function (task-item.ts, patched version):
reject a node of a different type untouched; otherwise sync
`listItem.dataset.checked`, the `aria-checked` attribute and the checkbox
span's `data-checked`, refresh the accessibility label from the updated node
and the checkbox's `data-checked` state, run the two attribute diff passes
against the freshly rendered attributes, and persist the new key set. -/
def taskItemUpdate (viewTypeName : String) (sa : StaticAttrs)
    (a11y : Option (VNode → Bool → String)) (newHTMLAttributes : RenderedAttrs)
    (updatedNode : VNode) (st : TaskItemViewState) :
    Bool × TaskItemViewState :=
  if updatedNode.typeName ≠ viewTypeName then (false, st)
  else
    let li := setA (setA st.listItemAttrs "data-checked" (bts updatedNode.checked))
      "aria-checked" (bts updatedNode.checked)
    let cb := setA st.checkboxAttrs "data-checked" (bts updatedNode.checked)
    let label := a11yLabel a11y updatedNode (cb "data-checked" == some "true")
    let newKeys := newHTMLAttributes.map Prod.fst
    let li2 := removedPass sa newKeys st.prevRenderedAttributeKeys li
    let li3 := changedPass sa newHTMLAttributes li2
    (true,
      { listItemAttrs := li3, checkboxAttrs := cb, ariaLabel := label,
        prevRenderedAttributeKeys := newKeys })

/-- The mutable state of the original node view: `listItem.dataset.checked`
(a string), the checkbox input's boolean `checked` property, and the
accessibility label. -/
structure TaskItemViewStateOrig where
  datasetChecked : String
  checkboxChecked : Bool
  ariaLabel : String

/-- The original node view's `update` function (task-item.ts, original
version): reject a node of a different type untouched; otherwise sync the
dataset and checkbox checked state and refresh the label.  The original
`updateA11Y` closes over the creation-time `node`, so the label text still
reads that node, while the checkbox state read is the freshly assigned one. -/
def taskItemUpdateOrig (viewTypeName : String)
    (a11y : Option (VNode → Bool → String)) (closureNode : VNode)
    (updatedNode : VNode) (st : TaskItemViewStateOrig) :
    Bool × TaskItemViewStateOrig :=
  if updatedNode.typeName ≠ viewTypeName then (false, st)
  else
    (true,
      { datasetChecked := bts updatedNode.checked,
        checkboxChecked := updatedNode.checked,
        ariaLabel := a11yLabel a11y closureNode updatedNode.checked })

/-! ## Checkbox click transform -/

/-- An attribute value of a document node (the task item carries the boolean
`checked`; other extensions may contribute string-valued attributes, all
spread unchanged by the transform). -/
inductive AVal where
  | b : Bool → AVal
  | s : String → AVal
deriving DecidableEq

/-- A document node as addressed by `tr.doc.nodeAt`: its type name and its
attribute record. -/
structure DocNode where
  typeName : String
  attrs : String → Option AVal

/-- The attribute record built by the spread
`{ ...currentNode?.attrs, checked }`: every key other than `checked` keeps its
current value. -/
def setCheckedAttrs (attrs : String → Option AVal) (c : Bool) :
    String → Option AVal :=
  fun k => if k = "checked" then some (AVal.b c) else attrs k

/-- The transaction command shared by the editable click branch and the
`updateEditorContent` branch: read `getPos()` (modelled by its result,
`none` when it does not return a number), return `false` leaving the document
untouched when the position is invalid, otherwise `setNodeMarkup` at that
position with the spread-and-override attribute record and return `true`.
(When `nodeAt` finds no node at an in-range position the claims do not apply;
the model then leaves the document unchanged.) -/
def setCheckedCmd (doc : List DocNode) (pos? : Option Nat) (c : Bool) :
    Bool × List DocNode :=
  match pos? with
  | none => (false, doc)
  | some p =>
    match doc[p]? with
    | none => (true, doc)
    | some n =>
      (true, doc.set p { typeName := n.typeName, attrs := setCheckedAttrs n.attrs c })

/-- The tri-state result of the `onReadOnlyChecked` callback
(`false | true | 'updateEditorContent'` in the source). -/
inductive ReadOnlyCheckedResult where
  | revert
  | accept
  | updateEditorContent
deriving DecidableEq

/-- Editor-visible state touched by a checkbox click: the checkbox span's
`data-checked` attribute and the document. -/
structure ClickState where
  checkboxDataChecked : String
  doc : List DocNode

/-- The patched node view's checkbox `click` listener: derive the new checked
state from the span's current `data-checked` attribute; ignore the click in a
read-only editor without an `onReadOnlyChecked` handler; in an editable editor
run the transaction command; in a read-only editor dispatch on the handler's
tri-state result — `revert` leaves everything unchanged, `accept` toggles only
the span's `data-checked`, `updateEditorContent` runs the transaction command. -/
def taskItemClick (editable : Bool)
    (onReadOnlyChecked : Option (DocNode → Bool → ReadOnlyCheckedResult))
    (node : DocNode) (pos? : Option Nat) (st : ClickState) : ClickState :=
  let oldChecked := st.checkboxDataChecked == "true"
  let newChecked := !oldChecked
  if editable = false ∧ onReadOnlyChecked.isNone then st
  else
    let st1 :=
      if editable then { st with doc := (setCheckedCmd st.doc pos? newChecked).2 }
      else st
    match onReadOnlyChecked with
    | none => st1
    | some f =>
      if editable then st1
      else
        match f node newChecked with
        | .revert => st1
        | .accept => { st1 with checkboxDataChecked := bts newChecked }
        | .updateEditorContent =>
          { st1 with doc := (setCheckedCmd st1.doc pos? newChecked).2 }

/-! ## Task-item input rule pattern

The patched `inputRegex` of task-item.ts is
`/^\s*((\[([( |x])?\])|\.)\s$/`: optional leading whitespace, then either a
bracket token — `[` followed by an optional character of the class
`(`, space, `|`, `x`, then `]` — or a literal dot, then exactly one
whitespace character.  `getAttributes` sets `checked` to whether the last
entry of the match array (capture group 3, `undefined` when absent) equals
`x`. -/

/-- Membership in the regex character class between the brackets. -/
def isTaskMid (m : Char) : Bool :=
  m == '(' || m == ' ' || m == '|' || m == 'x'

/-- The core of the patched task-item `inputRegex` after stripping the leading
whitespace: the remaining characters must be a dot or a bracket token
followed by exactly one whitespace character.  The result carries capture
group 3 (the optional class character), `none` when the group did not
participate. -/
def taskMatchCore (l : Chars) : Option (Option Char) :=
  match l with
  | [c, w] => if c == '.' && isWS w then some none else none
  | [a, b, w] => if a == '[' && b == ']' && isWS w then some none else none
  | [a, m, b, w] =>
    if a == '[' && isTaskMid m && b == ']' && isWS w then some (some m)
    else none
  | _ => none

/-- The patched task-item `inputRegex` as a matcher on the subject string,
returning capture group 3 on success. -/
def taskItemInputMatch (s : Chars) : Option (Option Char) :=
  taskMatchCore (s.dropWhile isWS)

/-- `getAttributes` of the task-item input rule:
`checked = match[match.length - 1] === 'x'`, where the last entry of the match
array is capture group 3. -/
def taskItemChecked (lastCapture : Option Char) : Bool :=
  lastCapture == some 'x'

/-! ## Lemmas about the attribute diff -/

theorem setA_self (m : AttrFun) (k v : String) : setA m k v k = some v := by
  simp [setA]

theorem setA_other (m : AttrFun) (k v k' : String) (h : k' ≠ k) :
    setA m k v k' = m k' := by
  simp [setA, h]

theorem resetOrRemove_self (sa : StaticAttrs) (m : AttrFun) (k : String) :
    resetOrRemove sa m k k = staticLookup sa k := by
  unfold resetOrRemove
  cases h : staticLookup sa k <;> simp [setA, removeA]

theorem resetOrRemove_other (sa : StaticAttrs) (m : AttrFun) (k k' : String)
    (h : k' ≠ k) : resetOrRemove sa m k k' = m k' := by
  unfold resetOrRemove
  cases staticLookup sa k <;> simp [setA, removeA, h]

theorem removedPass_eval (sa : StaticAttrs) (newKeys : List String) :
    ∀ (prevKeys : List String) (m : AttrFun) (k : String),
      removedPass sa newKeys prevKeys m k =
        if k ∈ prevKeys ∧ k ∉ newKeys then staticLookup sa k else m k := by
  intro prevKeys
  induction prevKeys with
  | nil => intro m k; simp [removedPass]
  | cons key rest ih =>
    intro m k
    have hstep : removedPass sa newKeys (key :: rest) m =
        removedPass sa newKeys rest
          (if key ∈ newKeys then m else resetOrRemove sa m key) := rfl
    rw [hstep, ih]
    by_cases h2 : k = key
    · subst h2
      by_cases h3 : k ∈ newKeys
      · simp [h3]
      · by_cases h4 : k ∈ rest <;>
          simp [h3, h4, resetOrRemove_self]
    · by_cases h1 : k ∈ rest ∧ k ∉ newKeys
      · simp [h1, h1.1, h1.2]
      · have hv : (if key ∈ newKeys then m else resetOrRemove sa m key) k = m k := by
          split
          · rfl
          · exact resetOrRemove_other sa m key k h2
        simp only [hv]
        have hmem : (k ∈ key :: rest ∧ k ∉ newKeys) ↔ (k ∈ rest ∧ k ∉ newKeys) := by
          simp [List.mem_cons, h2]
        rw [if_neg (fun hc => h1 (hmem.mp hc)), if_neg h1]

theorem changedPass_not_mem (sa : StaticAttrs) :
    ∀ (entries : RenderedAttrs) (m : AttrFun) (k : String),
      k ∉ entries.map Prod.fst → changedPass sa entries m k = m k := by
  intro entries
  induction entries with
  | nil => intro m k _; rfl
  | cons e rest ih =>
    intro m k hk
    have hk1 : k ≠ e.1 := by
      intro hx; exact hk (by simp [hx])
    have hk2 : k ∉ rest.map Prod.fst := by
      intro hx; exact hk (by simp [hx])
    have hstep : changedPass sa (e :: rest) m =
        changedPass sa rest
          (match e.2 with
           | none => resetOrRemove sa m e.1
           | some v => setA m e.1 v) := rfl
    rw [hstep, ih _ _ hk2]
    cases h : e.2 <;>
      simp [resetOrRemove_other sa m e.1 k hk1, setA_other m e.1 _ k hk1]

theorem changedPass_mem (sa : StaticAttrs) :
    ∀ (entries : RenderedAttrs) (m : AttrFun) (k : String) (w : Option String),
      (entries.map Prod.fst).Nodup → (k, w) ∈ entries →
      changedPass sa entries m k =
        (match w with
         | none => staticLookup sa k
         | some v => some v) := by
  intro entries
  induction entries with
  | nil => intro m k w _ hmem; cases hmem
  | cons e rest ih =>
    intro m k w hnd hmem
    rw [List.map_cons] at hnd
    have hnd1 : e.1 ∉ rest.map Prod.fst := (List.nodup_cons.mp hnd).1
    have hnd2 : (rest.map Prod.fst).Nodup := (List.nodup_cons.mp hnd).2
    have hstep : changedPass sa (e :: rest) m =
        changedPass sa rest
          (match e.2 with
           | none => resetOrRemove sa m e.1
           | some v => setA m e.1 v) := rfl
    rcases List.mem_cons.mp hmem with heq | hrest
    · have hke : e = (k, w) := heq.symm
      subst hke
      have hknot : k ∉ rest.map Prod.fst := hnd1
      rw [hstep, changedPass_not_mem sa rest _ k hknot]
      cases w <;> simp [resetOrRemove_self, setA_self]
    · rw [hstep]
      exact ih _ k w hnd2 hrest

/-- On a same-type node the patched update reduces to its synced state. -/
theorem taskItemUpdate_eq_of_type (viewTypeName : String) (sa : StaticAttrs)
    (a11y : Option (VNode → Bool → String)) (newAttrs : RenderedAttrs)
    (node : VNode) (st : TaskItemViewState) (h : node.typeName = viewTypeName) :
    taskItemUpdate viewTypeName sa a11y newAttrs node st =
      (true,
        { listItemAttrs :=
            changedPass sa newAttrs
              (removedPass sa (newAttrs.map Prod.fst) st.prevRenderedAttributeKeys
                (setA (setA st.listItemAttrs "data-checked" (bts node.checked))
                  "aria-checked" (bts node.checked))),
          checkboxAttrs := setA st.checkboxAttrs "data-checked" (bts node.checked),
          ariaLabel :=
            a11yLabel a11y node
              (setA st.checkboxAttrs "data-checked" (bts node.checked) "data-checked"
                == some "true"),
          prevRenderedAttributeKeys := newAttrs.map Prod.fst }) := by
  simp [taskItemUpdate, h]

/-- C1: in the patched node view's update path, every attribute key present in
the previous rendered attribute set but absent from the newly computed one,
and every key whose new value is null or undefined, ends up reset to the
caller-supplied static default when the key exists in the static
`HTMLAttributes` options and deleted from the view otherwise (both cases are
exactly `staticLookup`); in particular, with static default
`class = "foo"` and a dynamic `class` attribute later removed from the node,
the view's `class` equals `"foo"` after the update. -/
theorem taskItemUpdate_attr_fallback (viewTypeName : String) (sa : StaticAttrs)
    (a11y : Option (VNode → Bool → String)) (newAttrs : RenderedAttrs)
    (node : VNode) (st : TaskItemViewState)
    (htype : node.typeName = viewTypeName)
    (hnodup : (newAttrs.map Prod.fst).Nodup) :
    (∀ k, k ∈ st.prevRenderedAttributeKeys → k ∉ newAttrs.map Prod.fst →
      (taskItemUpdate viewTypeName sa a11y newAttrs node st).2.listItemAttrs k =
        staticLookup sa k) ∧
    (∀ k, (k, (none : Option String)) ∈ newAttrs →
      (taskItemUpdate viewTypeName sa a11y newAttrs node st).2.listItemAttrs k =
        staticLookup sa k) ∧
    (staticLookup sa "class" = some "foo" →
      "class" ∈ st.prevRenderedAttributeKeys →
      "class" ∉ newAttrs.map Prod.fst →
      (taskItemUpdate viewTypeName sa a11y newAttrs node st).2.listItemAttrs "class" =
        some "foo") := by
  rw [taskItemUpdate_eq_of_type viewTypeName sa a11y newAttrs node st htype]
  dsimp only
  refine ⟨?_, ?_, ?_⟩
  · intro k hkprev hknew
    rw [changedPass_not_mem sa newAttrs _ k hknew,
      removedPass_eval sa (newAttrs.map Prod.fst) st.prevRenderedAttributeKeys _ k,
      if_pos ⟨hkprev, hknew⟩]
  · intro k hk
    rw [changedPass_mem sa newAttrs _ k none hnodup hk]
  · intro hfoo hprev hnew
    rw [changedPass_not_mem sa newAttrs _ "class" hnew,
      removedPass_eval sa (newAttrs.map Prod.fst) st.prevRenderedAttributeKeys _ "class",
      if_pos ⟨hprev, hnew⟩, hfoo]

/-- Concrete node view instance used by the C1 witness. -/
def c1Node : VNode := { typeName := "taskItem", checked := false, textContent := "" }

/-- Concrete view state used by the C1 witness: a previously rendered dynamic
`class` attribute alongside the checked state. -/
def c1St : TaskItemViewState :=
  { listItemAttrs := fun k => if k = "class" then some "bar" else none,
    checkboxAttrs := fun _ => none,
    ariaLabel := "",
    prevRenderedAttributeKeys := ["class", "data-checked"] }

/-- Concrete freshly rendered attributes used by the C1 witness: the `class`
key has disappeared and the `id` key is newly rendered as null. -/
def c1New : RenderedAttrs := [("data-checked", some "false"), ("id", none)]

/-- C1 witness: with static default `class = "foo"`, a dynamic `class` removed
from the rendered set reverts to `"foo"`, and a null-valued key without a
static default is deleted. -/
theorem taskItemUpdate_attr_fallback_witness :
    c1Node.typeName = "taskItem" ∧
    (c1New.map Prod.fst).Nodup ∧
    "class" ∈ c1St.prevRenderedAttributeKeys ∧
    (taskItemUpdate "taskItem" [("class", "foo")] none c1New c1Node c1St).2.listItemAttrs
        "class" = some "foo" ∧
    (taskItemUpdate "taskItem" [("class", "foo")] none c1New c1Node c1St).2.listItemAttrs
        "id" = none :=
  ⟨rfl, by decide, by decide,
    (taskItemUpdate_attr_fallback "taskItem" [("class", "foo")] none c1New c1Node c1St
      rfl (by decide)).2.2 (by decide) (by decide) (by decide),
    by
      have h := (taskItemUpdate_attr_fallback "taskItem" [("class", "foo")] none c1New
        c1Node c1St rfl (by decide)).2.1 "id" (by decide)
      rw [h]
      decide⟩

/-- C6: both node view update functions return `false` exactly when the
updated node's type differs from the view's node type, leave the view state
completely untouched in that case, and return `true` for every same-type
node. -/
theorem taskItemUpdate_type_guard (viewTypeName : String) (sa : StaticAttrs)
    (a11y : Option (VNode → Bool → String)) (newAttrs : RenderedAttrs)
    (node : VNode) (st : TaskItemViewState)
    (a11yO : Option (VNode → Bool → String)) (closureNode nodeO : VNode)
    (stO : TaskItemViewStateOrig) :
    (((taskItemUpdate viewTypeName sa a11y newAttrs node st).1 = false ↔
        node.typeName ≠ viewTypeName) ∧
      (node.typeName ≠ viewTypeName →
        (taskItemUpdate viewTypeName sa a11y newAttrs node st).2 = st) ∧
      (node.typeName = viewTypeName →
        (taskItemUpdate viewTypeName sa a11y newAttrs node st).1 = true)) ∧
    (((taskItemUpdateOrig viewTypeName a11yO closureNode nodeO stO).1 = false ↔
        nodeO.typeName ≠ viewTypeName) ∧
      (nodeO.typeName ≠ viewTypeName →
        (taskItemUpdateOrig viewTypeName a11yO closureNode nodeO stO).2 = stO) ∧
      (nodeO.typeName = viewTypeName →
        (taskItemUpdateOrig viewTypeName a11yO closureNode nodeO stO).1 = true)) := by
  constructor
  · by_cases h : node.typeName = viewTypeName <;> simp [taskItemUpdate, h]
  · by_cases h : nodeO.typeName = viewTypeName <;> simp [taskItemUpdateOrig, h]

/-- C6 witness: a node of a different type is rejected with the state
untouched, a same-type node is accepted, for both view versions. -/
theorem taskItemUpdate_type_guard_witness :
    ("paragraph" : String) ≠ "taskItem" ∧
    (taskItemUpdate "taskItem" [] none [] c1Node c1St).1 = true ∧
    (taskItemUpdate "taskItem" []
        none [] { typeName := "paragraph", checked := false, textContent := "" } c1St).2 =
      c1St ∧
    (taskItemUpdateOrig "taskItem" none c1Node
        { typeName := "paragraph", checked := true, textContent := "" }
        { datasetChecked := "false", checkboxChecked := false, ariaLabel := "" }).2 =
      { datasetChecked := "false", checkboxChecked := false, ariaLabel := "" } := by
  refine ⟨by decide, ?_, ?_, ?_⟩
  · exact (taskItemUpdate_type_guard "taskItem" [] none [] c1Node c1St none c1Node
      c1Node ⟨"false", false, ""⟩).1.2.2 rfl
  · exact (taskItemUpdate_type_guard "taskItem" [] none []
      { typeName := "paragraph", checked := false, textContent := "" } c1St none c1Node
      c1Node ⟨"false", false, ""⟩).1.2.1 (by decide)
  · exact (taskItemUpdate_type_guard "taskItem" [] none [] c1Node c1St none c1Node
      { typeName := "paragraph", checked := true, textContent := "" }
      ⟨"false", false, ""⟩).2.2.1 (by decide)

/-- C9: toggling a node's boolean `checked` attribute twice in succession
returns the view to its original rendered state: starting from a view synced
to checked state `c` (its `data-checked`, `aria-checked` and checkbox
`data-checked` all render `c`), updating with `checked` negated and then again
with the original value leaves `listItem.dataset.checked`, the `aria-checked`
attribute and the checkbox's checked state equal to their values before the
first toggle.  The rendered attribute sets of the two updates are arbitrary
apart from what `getRenderedAttributes` guarantees for this node type: the
second one carries `data-checked` rendered from the restored value, and
neither renders `aria-checked`. -/
theorem taskItemUpdate_checked_roundtrip (viewTypeName : String)
    (sa : StaticAttrs) (a11y : Option (VNode → Bool → String))
    (newAttrs1 newAttrs2 : RenderedAttrs) (n1 n2 : VNode)
    (st : TaskItemViewState) (c : Bool)
    (h1 : n1.typeName = viewTypeName) (h2 : n2.typeName = viewTypeName)
    (_hc1 : n1.checked = !c) (hc2 : n2.checked = c)
    (hdc2 : ("data-checked", some (bts c)) ∈ newAttrs2)
    (hnodup2 : (newAttrs2.map Prod.fst).Nodup)
    (haria1 : "aria-checked" ∉ newAttrs1.map Prod.fst)
    (haria2 : "aria-checked" ∉ newAttrs2.map Prod.fst)
    (hs1 : st.listItemAttrs "data-checked" = some (bts c))
    (hs2 : st.listItemAttrs "aria-checked" = some (bts c))
    (hs3 : st.checkboxAttrs "data-checked" = some (bts c)) :
    ((taskItemUpdate viewTypeName sa a11y newAttrs2 n2
        (taskItemUpdate viewTypeName sa a11y newAttrs1 n1 st).2).2.listItemAttrs
        "data-checked" = st.listItemAttrs "data-checked") ∧
    ((taskItemUpdate viewTypeName sa a11y newAttrs2 n2
        (taskItemUpdate viewTypeName sa a11y newAttrs1 n1 st).2).2.listItemAttrs
        "aria-checked" = st.listItemAttrs "aria-checked") ∧
    ((taskItemUpdate viewTypeName sa a11y newAttrs2 n2
        (taskItemUpdate viewTypeName sa a11y newAttrs1 n1 st).2).2.checkboxAttrs
        "data-checked" = st.checkboxAttrs "data-checked") := by
  rw [taskItemUpdate_eq_of_type viewTypeName sa a11y newAttrs1 n1 st h1]
  rw [taskItemUpdate_eq_of_type viewTypeName sa a11y newAttrs2 n2 _ h2]
  dsimp only
  refine ⟨?_, ?_, ?_⟩
  · rw [changedPass_mem sa newAttrs2 _ "data-checked" (some (bts c)) hnodup2 hdc2, hs1]
  · rw [changedPass_not_mem sa newAttrs2 _ "aria-checked" haria2,
      removedPass_eval sa (newAttrs2.map Prod.fst) (newAttrs1.map Prod.fst) _
        "aria-checked",
      if_neg (fun hx => haria1 hx.1), setA_self, hs2, hc2]
  · rw [setA_self, hs3, hc2]

/-- Concrete synced view state used by the C9 witness (checked state `true`). -/
def c9St : TaskItemViewState :=
  { listItemAttrs := fun k =>
      if k = "data-checked" then some "true"
      else if k = "aria-checked" then some "true" else none,
    checkboxAttrs := fun k => if k = "data-checked" then some "true" else none,
    ariaLabel := "",
    prevRenderedAttributeKeys := ["data-checked"] }

/-- C9 witness: a concrete toggle from `true` to `false` and back restores the
three checked-state fields. -/
theorem taskItemUpdate_checked_roundtrip_witness :
    bts true = "true" ∧
    c9St.listItemAttrs "data-checked" = some "true" ∧
    ((taskItemUpdate "taskItem" [] none [("data-checked", some "true")]
        { typeName := "taskItem", checked := true, textContent := "" }
        (taskItemUpdate "taskItem" [] none [("data-checked", some "false")]
          { typeName := "taskItem", checked := false, textContent := "" } c9St).2).2.listItemAttrs
        "data-checked" = c9St.listItemAttrs "data-checked") ∧
    ((taskItemUpdate "taskItem" [] none [("data-checked", some "true")]
        { typeName := "taskItem", checked := true, textContent := "" }
        (taskItemUpdate "taskItem" [] none [("data-checked", some "false")]
          { typeName := "taskItem", checked := false, textContent := "" } c9St).2).2.checkboxAttrs
        "data-checked" = c9St.checkboxAttrs "data-checked") := by
  have h := taskItemUpdate_checked_roundtrip "taskItem" [] none
    [("data-checked", some "false")] [("data-checked", some "true")]
    { typeName := "taskItem", checked := false, textContent := "" }
    { typeName := "taskItem", checked := true, textContent := "" }
    c9St true rfl rfl (by decide) (by decide) (by decide) (by decide)
    (by decide) (by decide) (by decide) (by decide) (by decide)
  exact ⟨by decide, by decide, h.1, h.2.2⟩

/-- C7: when the click transform's target position is no longer valid
(`getPos()` does not return a number) the transaction command returns `false`
and leaves the document completely unchanged; when the position is valid the
committed transaction returns `true` and changes only the `checked` attribute
of the node at that position, spreading all other attributes (and the node's
type) unchanged, and leaves every other position of the document unchanged. -/
theorem setCheckedCmd_spec (doc : List DocNode) (c : Bool) :
    setCheckedCmd doc none c = (false, doc) ∧
    ∀ p n, doc[p]? = some n →
      (setCheckedCmd doc (some p) c).1 = true ∧
      ((setCheckedCmd doc (some p) c).2)[p]? =
        some { typeName := n.typeName, attrs := setCheckedAttrs n.attrs c } ∧
      (setCheckedAttrs n.attrs c) "checked" = some (AVal.b c) ∧
      (∀ k, k ≠ "checked" → (setCheckedAttrs n.attrs c) k = n.attrs k) ∧
      (∀ q, q ≠ p → ((setCheckedCmd doc (some p) c).2)[q]? = doc[q]?) := by
  refine ⟨rfl, ?_⟩
  intro p n h
  have hp : p < doc.length := (List.getElem?_eq_some.mp h).1
  simp only [setCheckedCmd, h]
  refine ⟨trivial, ?_, ?_, ?_, ?_⟩
  · exact List.getElem?_set_eq_of_lt _ hp
  · simp [setCheckedAttrs]
  · intro k hk; simp [setCheckedAttrs, hk]
  · intro q hq; exact List.getElem?_set_ne (fun hx => hq hx.symm)

/-- Concrete unchecked task-item node used by the C7 and C8 witnesses. -/
def c7Node0 : DocNode :=
  { typeName := "taskItem", attrs := fun k => if k = "checked" then some (AVal.b false) else none }

/-- Concrete two-node document used by the C7 and C8 witnesses. -/
def c7Doc : List DocNode :=
  [c7Node0, { typeName := "paragraph", attrs := fun _ => none }]

/-- C7 witness: the stale-position case leaves the concrete document
untouched, and the valid-position case rewrites only the `checked` attribute
of the addressed node. -/
theorem setCheckedCmd_spec_witness :
    c7Doc[0]? = some c7Node0 ∧
    setCheckedCmd c7Doc none true = (false, c7Doc) ∧
    (setCheckedCmd c7Doc (some 0) true).1 = true ∧
    ((setCheckedCmd c7Doc (some 0) true).2)[1]? = c7Doc[1]? := by
  have h0 : c7Doc[0]? = some c7Node0 := rfl
  have h := setCheckedCmd_spec c7Doc true
  exact ⟨h0, h.1, (h.2 0 _ h0).1, (h.2 0 _ h0).2.2.2.2 1 (by decide)⟩

/-- C8: with the editor read-only and an `onReadOnlyChecked` callback
supplied, every checkbox click resolves through exactly one of the three
variants — a revert result leaves both the view's checked state and the
document unchanged; an accept result toggles only the view's checked state and
leaves the document unchanged; an `updateEditorContent` result leaves the
view's checked state alone and commits the new checked value into the
addressed node's document attributes; and with no callback supplied the click
changes nothing. -/
theorem taskItemClick_readOnly_dispatch
    (f : DocNode → Bool → ReadOnlyCheckedResult) (node : DocNode)
    (pos? : Option Nat) (st : ClickState) :
    (taskItemClick false none node pos? st = st) ∧
    (f node (!(st.checkboxDataChecked == "true")) = .revert →
      taskItemClick false (some f) node pos? st = st) ∧
    (f node (!(st.checkboxDataChecked == "true")) = .accept →
      taskItemClick false (some f) node pos? st =
        { st with checkboxDataChecked := bts (!(st.checkboxDataChecked == "true")) }) ∧
    (f node (!(st.checkboxDataChecked == "true")) = .updateEditorContent →
      (taskItemClick false (some f) node pos? st).checkboxDataChecked =
        st.checkboxDataChecked ∧
      (taskItemClick false (some f) node pos? st).doc =
        (setCheckedCmd st.doc pos? (!(st.checkboxDataChecked == "true"))).2 ∧
      (∀ p n, pos? = some p → st.doc[p]? = some n →
        ((taskItemClick false (some f) node pos? st).doc)[p]? =
          some ⟨n.typeName, setCheckedAttrs n.attrs (!(st.checkboxDataChecked == "true"))⟩)) := by
  refine ⟨?_, ?_, ?_, ?_⟩
  · simp [taskItemClick]
  · intro hf; simp [taskItemClick, hf]
  · intro hf; simp [taskItemClick, hf]
  · intro hf
    refine ⟨?_, ?_, ?_⟩
    · simp [taskItemClick, hf]
    · simp [taskItemClick, hf]
    · intro p n hpos hget
      subst hpos
      have hp : p < st.doc.length := (List.getElem?_eq_some.mp hget).1
      simp only [taskItemClick, hf]
      simp only [Option.isNone_some, Bool.false_eq_true, and_false, if_neg,
        Bool.false_eq_true]
      simp [setCheckedCmd, hget, List.getElem?_set_eq_of_lt _ hp]

/-- Concrete click state used by the C8 witness: the checkbox currently reads
unchecked, so the click proposes checked. -/
def c8St : ClickState := { checkboxDataChecked := "false", doc := c7Doc }

/-- C8 witness: the three callback variants and the no-callback case on a
concrete read-only click. -/
theorem taskItemClick_readOnly_dispatch_witness :
    ((fun (_ : DocNode) (_ : Bool) => ReadOnlyCheckedResult.accept) c7Node0
        (!(c8St.checkboxDataChecked == "true")) = ReadOnlyCheckedResult.accept) ∧
    taskItemClick false none c7Node0 (some 0) c8St = c8St ∧
    taskItemClick false (some fun _ _ => ReadOnlyCheckedResult.revert) c7Node0
        (some 0) c8St = c8St ∧
    taskItemClick false (some fun _ _ => ReadOnlyCheckedResult.accept) c7Node0
        (some 0) c8St =
      { c8St with checkboxDataChecked := bts (!(c8St.checkboxDataChecked == "true")) } ∧
    ((taskItemClick false (some fun _ _ => ReadOnlyCheckedResult.updateEditorContent)
        c7Node0 (some 0) c8St).doc)[0]? =
      some ⟨c7Node0.typeName,
        setCheckedAttrs c7Node0.attrs (!(c8St.checkboxDataChecked == "true"))⟩ :=
  ⟨rfl,
    (taskItemClick_readOnly_dispatch (fun _ _ => ReadOnlyCheckedResult.accept)
      c7Node0 (some 0) c8St).1,
    (taskItemClick_readOnly_dispatch (fun _ _ => ReadOnlyCheckedResult.revert)
      c7Node0 (some 0) c8St).2.1 rfl,
    (taskItemClick_readOnly_dispatch (fun _ _ => ReadOnlyCheckedResult.accept)
      c7Node0 (some 0) c8St).2.2.1 rfl,
    ((taskItemClick_readOnly_dispatch (fun _ _ => ReadOnlyCheckedResult.updateEditorContent)
      c7Node0 (some 0) c8St).2.2.2 rfl).2.2 0 c7Node0 rfl rfl⟩

/-- Whitespace-only text prepended to a subject does not change the stripped
remainder. -/
theorem dropWhile_ws_append (pre : Chars) (h : ∀ c ∈ pre, isWS c = true)
    (l : Chars) : (pre ++ l).dropWhile isWS = l.dropWhile isWS := by
  induction pre with
  | nil => rfl
  | cons c rest ih =>
    have hc : isWS c = true := h c (List.mem_cons_self c rest)
    rw [List.cons_append, List.dropWhile_cons_of_pos hc]
    exact ih (fun x hx => h x (List.mem_cons_of_mem c hx))

/-- C10: the patched task-item input rule matches every input consisting of
optional leading whitespace, then a bracket token (empty, space, `(` or `x`)
or a single dot, then one whitespace character; the created task item's
`checked` attribute is true exactly when the last capture of the match equals
`x`; in particular a dot followed by a space matches and yields
`checked = false`. -/
theorem taskItem_inputRule_language (pre : Chars) (w : Char)
    (hpre : ∀ c ∈ pre, isWS c = true) (hw : isWS w = true) :
    taskItemInputMatch (pre ++ ['.', w]) = some none ∧
    taskItemInputMatch (pre ++ ['[', ']', w]) = some none ∧
    taskItemInputMatch (pre ++ ['[', ' ', ']', w]) = some (some ' ') ∧
    taskItemInputMatch (pre ++ ['[', '(', ']', w]) = some (some '(') ∧
    taskItemInputMatch (pre ++ ['[', 'x', ']', w]) = some (some 'x') ∧
    (∀ g, taskItemChecked g = true ↔ g = some 'x') ∧
    taskItemChecked (some 'x') = true ∧
    taskItemInputMatch ". ".toList = some none ∧
    taskItemChecked none = false := by
  have hcore : ∀ (l : Chars), l.dropWhile isWS = l →
      taskItemInputMatch (pre ++ l) = taskMatchCore l := by
    intro l hl
    unfold taskItemInputMatch
    rw [dropWhile_ws_append pre hpre l, hl]
  refine ⟨?_, ?_, ?_, ?_, ?_, ?_, by decide, by decide, by decide⟩
  · rw [hcore ['.', w] (by rw [List.dropWhile_cons_of_neg (by decide)])]
    simp [taskMatchCore, hw]
  · rw [hcore ['[', ']', w] (by rw [List.dropWhile_cons_of_neg (by decide)])]
    simp [taskMatchCore, hw]
  · rw [hcore ['[', ' ', ']', w] (by rw [List.dropWhile_cons_of_neg (by decide)])]
    simp [taskMatchCore, isTaskMid, hw]
  · rw [hcore ['[', '(', ']', w] (by rw [List.dropWhile_cons_of_neg (by decide)])]
    simp [taskMatchCore, isTaskMid, hw]
  · rw [hcore ['[', 'x', ']', w] (by rw [List.dropWhile_cons_of_neg (by decide)])]
    simp [taskMatchCore, isTaskMid, hw]
  · intro g
    cases g with
    | none => simp [taskItemChecked]
    | some m => simp [taskItemChecked]

/-- C10 witness: a single leading space, the dot trigger and the bracket
triggers at a concrete whitespace character. -/
theorem taskItem_inputRule_language_witness :
    (∀ c ∈ [' '], isWS c = true) ∧ isWS ' ' = true ∧
    taskItemInputMatch ([' '] ++ ['.', ' ']) = some none ∧
    taskItemInputMatch ([' '] ++ ['[', 'x', ']', ' ']) = some (some 'x') ∧
    taskItemChecked none = false :=
  ⟨by decide, by decide,
    (taskItem_inputRule_language [' '] ' ' (by decide) (by decide)).1,
    (taskItem_inputRule_language [' '] ' ' (by decide) (by decide)).2.2.2.2.1,
    (taskItem_inputRule_language [' '] ' ' (by decide) (by decide)).2.2.2.2.2.2.2.2⟩

end Tiptap
